import Mathlib

/-! Verification of the UT-CompilerDesign2019 scanner, embedded from
src/src/scanner.c (the final revision, with `scan_sc` … `scan_prep` and
the `lex` dispatch table).

The input stream (`FILE* fin`) is modelled as a `List Char`: `fgetc` pops
the head and returns `none` at end of file (C's `EOF`), `ungetc` pushes a
character back (`ungetc(EOF, f)` fails and is a no-op, as in C, because
the stored `(char)EOF` promotes back to `EOF`).  Buffers that may store
the fetched `EOF` sentinel are `List (Option Char)`; `lexchars` renders
them for `%s` printing.  Each `scan_*` definition mirrors the
corresponding C function branch by branch; the strings it would `fprintf`
to the output file are collected in a list.  A scanner evaluates to
`none` exactly when the corresponding C loop never exits (loops that test
`c != EOF` terminate; the ones in `scan_char`, `scan_str` and the
closing-symbol loop of `scan_prep` do not test for `EOF` and read it
forever).  Input bytes are assumed non-NUL, so C string buffers are plain
character lists. -/

abbrev Cursor := List Char

def fgetc : Cursor → Option Char × Cursor
  | [] => (none, [])
  | c :: s => (some c, s)

def ungetc : Option Char → Cursor → Cursor
  | none, s => s
  | some c, s => c :: s

/-- C `ungets`: pushes the characters of the buffer back in reverse
order, so a subsequent read sees them in the original order again. -/
def ungets : List Char → Cursor → Cursor
  | [], s => s
  | c :: rest, s => ungetc (some c) (ungets rest s)

/-- `ungets` on a buffer that may hold a stored `EOF` sentinel; pushing
the sentinel back is a no-op, exactly as `ungetc(EOF, f)` fails in C. -/
def ungetsO : List (Option Char) → Cursor → Cursor
  | [], s => s
  | c :: rest, s => ungetc c (ungetsO rest s)

/-- Characters of a buffer as printed by `%s` (the `EOF` sentinel never
occurs in the printed region on the paths the claims exercise). -/
def lexchars (l : List (Option Char)) : List Char := l.filterMap id

/-- C `fgets(buf, n+1, f)`: reads at most `n` characters, stopping after
a newline (which is kept); at end of file it returns what was read. -/
def fgets : Nat → Cursor → List Char × Cursor
  | 0, s => ([], s)
  | _ + 1, [] => ([], [])
  | n + 1, c :: s =>
    if c = '\u000A' then ([c], s)
    else
      let (r, s') := fgets n s
      (c :: r, s')

/-- Lift a character predicate to a fetched `Option Char`; the C range
tests are all false on the stored `(char)EOF`. -/
def testO (p : Char → Bool) : Option Char → Bool
  | some c => p c
  | none => false

def is_newline (c : Char) : Bool := c == '\u000D' || c == '\u000A'

def is_whitespace (c : Char) : Bool := c == ' ' || c == '\u0009' || is_newline c

def is_alphabet (c : Char) : Bool :=
  (decide ('A' ≤ c) && decide (c ≤ 'Z')) || (decide ('a' ≤ c) && decide (c ≤ 'z'))

def is_digit (c : Char) : Bool := decide ('0' ≤ c) && decide (c ≤ '9')

def is_underscore (c : Char) : Bool := c == '_'

def is_hex_digit (c : Char) : Bool :=
  is_digit c || (decide ('a' ≤ c) && decide (c ≤ 'f')) || (decide ('A' ≤ c) && decide (c ≤ 'F'))

/-- The `switch` of `get_escaped_char` in scanner.c. -/
def get_escaped_char (c : Char) : Char :=
  if c = 'a' then '\u0007'
  else if c = 'b' then '\u0008'
  else if c = 'e' then '\u001B'
  else if c = 'f' then '\u000C'
  else if c = 'n' then '\u000A'
  else if c = 'r' then '\u000D'
  else if c = 't' then '\u0009'
  else if c = 'v' then '\u000B'
  else if c = '\\' then '\\'
  else if c = '\'' then '\''
  else if c = '"' then '"'
  else if c = '?' then '?'
  else c

/-- The C loop shape `while (p(c)) { buf[cur++] = c; c = fgetc(f); }`
where `c` holds an already-fetched character on entry.  Returns the
stored characters, the final rejected character (which the caller hands
to `ungetc`; `none` when the loop stopped on a fetched `EOF`) and the
remaining stream. -/
def readWhile (p : Char → Bool) : Option Char → Cursor → List Char × Option Char × Cursor
  | none, s => ([], none, s)
  | some c, [] => if p c then ([c], none, []) else ([], some c, [])
  | some c, d :: s =>
    if p c then
      let (r, c', s') := readWhile p (some d) s
      (c :: r, c', s')
    else ([], some c, d :: s)

/-- The C loop shape `do { c = fgetc(f); buf[cur++] = c; } while (p(c));`
whose rejected final store is then trimmed (`buf[cur-1] = 0`) or pushed
back by the caller.  Returns the accepted characters, the rejected
character (`none` when the loop stopped on a fetched `EOF`) and the
remaining stream (the rejected character has been consumed). -/
def readDW (p : Char → Bool) : Cursor → List Char × Option Char × Cursor
  | [] => ([], none, [])
  | c :: s =>
    if p c then
      let (r, c', s') := readDW p s
      (c :: r, c', s')
    else ([], some c, s)

/-- Like `readDW` for the do-while loops with no `EOF` escape (the
closing-symbol loop of `scan_prep`): at end of input `fgetc` returns
`EOF` forever, the C condition stays true and the loop never exits, so
the model returns `none`. -/
def readDWD (p : Char → Bool) : Cursor → Option (List Char × Char × Cursor)
  | [] => none
  | c :: s =>
    if p c then
      match readDWD p s with
      | none => none
      | some (r, c', s') => some (c :: r, c', s')
    else some ([], c, s)

/-- A scanner attempt: `none` models a C loop that never terminates;
`some (accepted, lines, rest)` gives the return value of the C function,
the lines it `fprintf`ed, and the stream afterwards. -/
abbrev ScanResult := Option (Bool × List String × Cursor)

/-- `scan_iden`: identifier `[A-Za-z_][A-Za-z_0-9]*`, maximal munch, the
terminating character pushed back. -/
def scan_iden (s : Cursor) : ScanResult :=
  let (c, s1) := fgetc s
  match c with
  | some ch =>
    if is_alphabet ch || is_underscore ch then
      let (str, c', s2) :=
        readWhile (fun d => is_alphabet d || is_underscore d || is_digit d) (some ch) s1
      some (true, ["IDEN: " ++ String.mk str ++ "\n"], ungetc c' s2)
    else some (false, [], ungetc (some ch) s1)
  | none => some (false, [], s1)

/-- The loop shared by `scan_rewd` and `scan_oper`: for each table entry
`fgets` exactly its length, compare with `strcmp`, and on mismatch push
the read characters back with `ungets`. -/
def scanTable (clsName : String) (tbl : List String) (s : Cursor) : Bool × List String × Cursor :=
  match tbl with
  | [] => (false, [], s)
  | w :: rest =>
    let (buf, s') := fgets w.length s
    if buf = w.data then (true, [clsName ++ ": " ++ w ++ "\n"], s')
    else scanTable clsName rest (ungets buf s')

/-- The `rewds` table of `scan_rewd`. -/
def rewds : List String :=
  ["if", "else", "while", "for", "do", "switch", "case", "default",
   "continue", "int", "float", "double", "char", "break", "static",
   "extern", "auto", "register", "sizeof", "union", "struct", "enum",
   "return", "goto", "const"]

/-- The `opers` table of `scan_oper` (two-character forms first). -/
def opers : List String :=
  [">>", "<<", "++", "--", "+=", "-=", "*=", "/=", "%=", "&&", "||",
   "->", "==", ">=", "<=", "!=",
   "+", "-", "*", "/", "=", ",", "%", "!", "&", "[", "]", "|", "^",
   ".", ">", "<", ":", "?"]

def scan_rewd (s : Cursor) : ScanResult := some (scanTable "REWD" rewds s)

def scan_oper (s : Cursor) : ScanResult := some (scanTable "OPER" opers s)

/-- `scan_inte`: decimal zero, hexadecimal, octal and decimal branches,
exactly as in scanner.c (including the two-character push-back
`ungets(&buf[current] - 2, fin)` when no hex digit follows `0x`). -/
def scan_inte (s : Cursor) : ScanResult :=
  let (c, s1) := fgetc s
  match c with
  | none => some (false, [], s1)
  | some c0 =>
    if is_digit c0 then
      if c0 = '0' then
        let (c1, s2) := fgetc s1
        match c1 with
        | some ch1 =>
          if ch1 = 'x' || ch1 = 'X' then
            let (c2, s3) := fgetc s2
            if testO is_hex_digit c2 then
              let (digits, c', s4) := readWhile is_hex_digit c2 s3
              some (true, ["INTE: " ++ String.mk ('0' :: ch1 :: digits) ++ "\n"], ungetc c' s4)
            else
              some (true, ["INTE: 0\n"], ungetsO [some ch1, c2] s3)
          else if decide ('0' ≤ ch1) && decide (ch1 ≤ '7') then
            let (digits, c', s3) :=
              readWhile (fun d => decide ('0' ≤ d) && decide (d ≤ '7')) (some ch1) s2
            some (true, ["INTE: " ++ String.mk ('0' :: digits) ++ "\n"], ungetc c' s3)
          else
            some (true, ["INTE: 0\n"], ungetc (some ch1) s2)
        | none => some (true, ["INTE: 0\n"], s2)
      else
        let (digits, c', s2) := readWhile is_digit (some c0) s1
        some (true, ["INTE: " ++ String.mk digits ++ "\n"], ungetc c' s2)
    else some (false, [], ungetc (some c0) s1)

/-- The part of `scan_flot` after the mantissa: `bufMant` is the buffer
contents up to (not including) the final stored terminator `cLast`, and
the checkpoint rollback of the C code pushes back exactly the `E`/`e`
and the optional exponent sign. -/
def flotExponent (bufMant : List (Option Char)) (cLast : Option Char) (s : Cursor) :
    Bool × List String × Cursor :=
  if testO (fun ch => ch == 'E' || ch == 'e') cLast then
    let (c1, s1) := fgetc s
    let (signE, c2, s2) :=
      if testO (fun ch => ch == '+' || ch == '-') c1 then
        let (c2, s2) := fgetc s1
        ([c1], c2, s2)
      else ([], c1, s1)
    if testO is_digit c2 then
      let (digits, c', s3) := readWhile is_digit c2 s2
      (true, ["FLOT: " ++ String.mk (lexchars (bufMant ++ cLast :: signE) ++ digits) ++ "\n"],
        ungetc c' s3)
    else
      (true, ["FLOT: " ++ String.mk (lexchars bufMant) ++ "\n"],
        ungetsO (cLast :: signE ++ [c2]) s2)
  else
    (true, ["FLOT: " ++ String.mk (lexchars bufMant) ++ "\n"], ungetc cLast s)

/-- `scan_flot`: optional sign, mantissa `D+.D*` or `.D+` (declining with
a full `ungets(buf, fin)` otherwise), then the exponent part. -/
def scan_flot (s : Cursor) : ScanResult :=
  let (c0, s1) := fgetc s
  let (bufSign, s2) :=
    if testO (fun ch => ch == '+' || ch == '-') c0 then (([c0] : List (Option Char)), s1)
    else ([], ungetc c0 s1)
  let (c1, s3) := fgetc s2
  match c1 with
  | none => some (false, [], ungetsO (bufSign ++ [none]) s3)
  | some ch1 =>
    if is_digit ch1 then
      let (ints, cI, s4) := readDW is_digit s3
      if cI = some '.' then
        let (fracs, cF, s5) := readDW is_digit s4
        some (flotExponent (bufSign ++ some ch1 :: ints.map some ++ some '.' :: fracs.map some) cF s5)
      else
        some (false, [], ungetsO (bufSign ++ some ch1 :: ints.map some ++ [cI]) s4)
    else if ch1 = '.' then
      let (c2, s4) := fgetc s3
      if testO is_digit c2 then
        let (fracs, cF, s5) := readDW is_digit s4
        some (flotExponent (bufSign ++ some ch1 :: c2 :: fracs.map some) cF s5)
      else
        some (false, [], ungetsO (bufSign ++ [some ch1, c2]) s4)
    else
      some (false, [], ungetsO (bufSign ++ [some ch1]) s3)

/-- The content loop of `scan_char`:
`while (c != '\'' && !is_newline(c)) { buf[current++] = c; c = fgetc(fin); }`.
It never tests for `EOF`, so reaching the end of input diverges
(`none`); otherwise it yields the content, the terminating quote or
newline (consumed), and the rest. -/
def charLoop : Cursor → Option (List Char × Char × Cursor)
  | [] => none
  | c :: s =>
    if c = '\'' || is_newline c then some ([], c, s)
    else
      match charLoop s with
      | none => none
      | some (buf, t, s') => some (c :: buf, t, s')

/-- `scan_char`: char literal; empty content is reported before the
closing-quote check, and a missing closing quote keeps the partial
content and appends the error. -/
def scan_char (s : Cursor) : ScanResult :=
  let (c, s1) := fgetc s
  if c = some '\'' then
    match charLoop s1 with
    | none => none
    | some (buf, t, s2) =>
      if buf = [] then some (true, ["CHAR: ERROR: expected at least one char literal\n"], s2)
      else if t = '\'' then some (true, ["CHAR: " ++ String.mk buf ++ "\n"], s2)
      else some (true, ["CHAR: " ++ String.mk buf ++ " ERROR: missing '\n"], s2)
  else some (false, [], ungetc c s1)

mutual

/-- The content loop of `scan_str`: stops at `"` or a newline character;
a backslash before `'\n'` (only) skips the whitespace run with an inner
do-while and resumes through `strCont`, a backslash before anything else
stores the escape translation.  No branch tests for `EOF`, so exhausting
the input diverges (`none`). -/
def strLoop : Cursor → Option (List Char × Char × Cursor)
  | [] => none
  | c :: s =>
    if c = '"' || is_newline c then some ([], c, s)
    else if c = '\\' then
      match s with
      | [] => none
      | e :: s2 =>
        if e = '\u000A' then strCont (s2.dropWhile is_whitespace)
        else
          match strLoop s2 with
          | none => none
          | some (buf, t, s') => some (get_escaped_char e :: buf, t, s')
    else
      match strLoop s with
      | none => none
      | some (buf, t, s') => some (c :: buf, t, s')
termination_by s => s.length
decreasing_by
  · have hle := (List.dropWhile_suffix (l := s2) is_whitespace).sublist.length_le
    simp
    omega
  · simp
    omega
  · simp

/-- Resumption after a line continuation in `scan_str`: the whitespace
run has been skipped, the first non-whitespace character is stored
unconditionally (`buf[current++] = c`) and the loop continues; when the
skip ran into the end of input the loop reads `EOF` forever
(divergence). -/
def strCont : Cursor → Option (List Char × Char × Cursor)
  | [] => none
  | d :: s3 =>
    match strLoop s3 with
    | none => none
    | some (buf, t, s') => some (d :: buf, t, s')
termination_by s => s.length

end

/-- `scan_str`: string literal with escape processing and line
continuation; a missing closing quote keeps the partial content. -/
def scan_str (s : Cursor) : ScanResult :=
  let (c, s1) := fgetc s
  if c = some '"' then
    match strLoop s1 with
    | none => none
    | some (buf, t, s2) =>
      if t = '"' then some (true, ["STR: " ++ String.mk buf ++ "\n"], s2)
      else some (true, ["STR: " ++ String.mk buf ++ " ERROR: missing \"\n"], s2)
  else some (false, [], ungetc c s1)

/-- `scan_spec`: one-character symbols. -/
def scan_spec (s : Cursor) : ScanResult :=
  let (c, s1) := fgetc s
  match c with
  | some ch =>
    if ch = '{' || ch = '}' || ch = '(' || ch = ')' || ch = ';' then
      some (true, ["SPEC: " ++ String.mk [ch] ++ "\n"], s1)
    else some (false, [], ungetc (some ch) s1)
  | none => some (false, [], s1)

/-- `scan_sc`: single-line comment; the peeked `//` is pushed back and
re-read into the content, which runs to the newline or `EOF` (the
newline is consumed and trimmed from the lexeme). -/
def scan_sc (s : Cursor) : ScanResult :=
  let (buf, s1) := fgets 2 s
  if buf = "//".data then
    let s2 := ungets buf s1
    let (content, _, s3) := readDW (fun c => !is_newline c) s2
    some (true, ["SC: " ++ String.mk content ++ "\n"], s3)
  else some (false, [], ungets buf s1)

/-- The closer loop of `scan_mc`: after a `'*'` the next character is
fetched and only compared with `'/'`; if it is not `'/'` (even if it is
another `'*'`) scanning resumes with a fresh fetch.  Returns whether a
closer was recognized and the rest of the stream. -/
def mcLoop : Cursor → Bool × Cursor
  | [] => (false, [])
  | c :: s =>
    if c = '*' then
      match s with
      | [] => (false, [])
      | d :: s2 => if d = '/' then (true, s2) else mcLoop s2
    else mcLoop s

/-- `scan_mc`: multi-line comment; the lexeme is empty, and reaching
`EOF` before a recognized closer appends the missing-closer error. -/
def scan_mc (s : Cursor) : ScanResult :=
  let (buf, s1) := fgets 2 s
  if buf = "/*".data then
    match mcLoop s1 with
    | (true, s2) => some (true, ["MC: \n"], s2)
    | (false, s2) => some (true, ["MC: ERROR: missing */\n"], s2)
  else some (false, [], ungets buf s1)

/-- `scan_prep`: preprocessor directive.  Note the decline path when the
characters after `#` (and optional whitespace) are not `include`: the C
code prints the error, executes `ungets("include", fin)` — pushing back
the literal word `include` rather than the characters actually consumed
(and never restoring the `#`) — and returns false. -/
def scan_prep (s : Cursor) : ScanResult :=
  let (c, s1) := fgetc s
  if c = some '#' then
    let (c2, s2) := fgetc s1
    let (ws1, cA, s3) := readWhile is_whitespace c2 s2
    let s4 := ungetc cA s3
    let (inc, s5) := fgets 7 s4
    if inc = "include".data then
      let (c3, s6) := fgetc s5
      let (ws2, cB, s7) := readWhile is_whitespace c3 s6
      let bufPre : List Char := '#' :: ws1 ++ "include".data ++ ws2
      if cB = some '<' || cB = some '"' then
        let closing : Char := if cB = some '<' then '>' else '"'
        match readDWD (fun ch => !(ch == closing) && !is_newline ch) s7 with
        | none => none
        | some (body, t, s8) =>
          if t = closing then
            some (true, ["PREP: " ++ String.mk (bufPre ++ lexchars [cB] ++ body ++ [t]) ++ "\n"], s8)
          else
            some (true, ["PREP: " ++ String.mk (bufPre ++ lexchars [cB] ++ body ++ [t]) ++
              " ERROR: missing " ++ String.mk [closing] ++ "\n"], s8)
      else
        some (true, ["PREP: " ++ String.mk (bufPre ++ lexchars [cB]) ++
          " ERROR: expected < or \"\n"], ungetc cB s7)
    else
      some (false, ["PREP: " ++ String.mk ('#' :: ws1 ++ inc) ++
        " ERROR: expected \"include\"\n"], ungets "include".data s5)
  else some (false, [], ungetc c s1)

/-- The `lex` array of function pointers, in its exact order. -/
def lexFns : List (Cursor → ScanResult) :=
  [scan_sc, scan_mc, scan_prep, scan_spec, scan_rewd, scan_char,
   scan_str, scan_flot, scan_oper, scan_iden, scan_inte]

/-- `get_next_token`'s loop over the function-pointer array: stop at the
first scanner returning true, collecting everything printed along the
way (a declining `scan_prep` still prints its error line). -/
def tryLex : List (Cursor → ScanResult) → Cursor → Option (List String × Cursor)
  | [], s => some ([], s)
  | f :: rest, s =>
    match f s with
    | none => none
    | some (true, out, s') => some (out, s')
    | some (false, out, s') =>
      match tryLex rest s' with
      | none => none
      | some (out2, s'') => some (out ++ out2, s'')

def get_next_token (s : Cursor) : Option (List String × Cursor) := tryLex lexFns s

/-- The main tokenizing loop of `main`: call `get_next_token`, peek one
character, consume it when it is whitespace, and loop until the peek
yields `EOF`.  `fuel` bounds the number of iterations; `none` means the
fuel ran out (the loop did not terminate within it) or a scanner
diverged. -/
def driver : Nat → Cursor → Option (List String)
  | 0, _ => none
  | fuel + 1, s =>
    match get_next_token s with
    | none => none
    | some (out, s1) =>
      match s1 with
      | [] => some out
      | c :: s2 =>
        if is_whitespace c then
          match driver fuel s2 with
          | none => none
          | some out2 => some (out ++ out2)
        else
          match driver fuel (c :: s2) with
          | none => none
          | some out2 => some (out ++ out2)

/-! Basic facts about the cursor primitives. -/

@[simp] lemma lexchars_nil : lexchars [] = [] := rfl

@[simp] lemma lexchars_cons_some (c : Char) (l : List (Option Char)) :
    lexchars (some c :: l) = c :: lexchars l := rfl

@[simp] lemma lexchars_cons_none (l : List (Option Char)) :
    lexchars (none :: l) = lexchars l := rfl

@[simp] lemma lexchars_append (a b : List (Option Char)) :
    lexchars (a ++ b) = lexchars a ++ lexchars b := by
  simp [lexchars]

@[simp] lemma lexchars_map_some (l : List Char) : lexchars (l.map some) = l := by
  induction l with
  | nil => rfl
  | cons c l ih => simp [ih]

lemma ungets_append (l : List Char) (s : Cursor) : ungets l s = l ++ s := by
  induction l with
  | nil => rfl
  | cons c rest ih => simp [ungets, ungetc, ih]

lemma ungetsO_append (l : List (Option Char)) (s : Cursor) :
    ungetsO l s = lexchars l ++ s := by
  induction l with
  | nil => rfl
  | cons c rest ih => cases c <;> simp [ungetsO, ungetc, ih]

lemma fgets_append (n : Nat) (s : Cursor) : (fgets n s).1 ++ (fgets n s).2 = s := by
  induction n generalizing s with
  | zero => rfl
  | succ n ih =>
    cases s with
    | nil => rfl
    | cons c s =>
      by_cases hc : c = '\u000A'
      · simp [fgets, hc]
      · simp [fgets, hc, ih]

lemma fgets_cons_head (n : Nat) (c : Char) (s : Cursor) :
    ((fgets (n + 1) (c :: s)).1).head? = some c := by
  by_cases hc : c = '\u000A' <;> simp [fgets, hc]

/-! Facts about the loop combinators. -/

lemma readWhile_stop (p : Char → Bool) (c : Char) (s : Cursor) (h : p c = false) :
    readWhile p (some c) s = ([], some c, s) := by
  cases s <;> simp [readWhile, h]

lemma readWhile_stops (p : Char → Bool) (a : Char) (ds : List Char) (c : Char) (rest : Cursor)
    (ha : p a = true) (hds : ∀ d ∈ ds, p d = true) (hc : p c = false) :
    readWhile p (some a) (ds ++ c :: rest) = (a :: ds, some c, rest) := by
  induction ds generalizing a with
  | nil => simp [readWhile, ha, readWhile_stop p c rest hc]
  | cons d ds ih =>
    have hd : p d = true := hds d (by simp)
    have hrec := ih d hd (fun x hx => hds x (by simp [hx]))
    simp [readWhile, ha, hrec]

lemma readWhile_all (p : Char → Bool) (a : Char) (ds : List Char)
    (ha : p a = true) (hds : ∀ d ∈ ds, p d = true) :
    readWhile p (some a) ds = (a :: ds, none, []) := by
  induction ds generalizing a with
  | nil => simp [readWhile, ha]
  | cons d ds ih =>
    have hd : p d = true := hds d (by simp)
    have hrec := ih d hd (fun x hx => hds x (by simp [hx]))
    simp [readWhile, ha, hrec]

lemma readDW_stops (p : Char → Bool) (ds : List Char) (c : Char) (rest : Cursor)
    (hds : ∀ d ∈ ds, p d = true) (hc : p c = false) :
    readDW p (ds ++ c :: rest) = (ds, some c, rest) := by
  induction ds with
  | nil => simp [readDW, hc]
  | cons d ds ih =>
    have hd : p d = true := hds d (by simp)
    have hrec := ih (fun x hx => hds x (by simp [hx]))
    simp [readDW, hd, hrec]

lemma readDW_all (p : Char → Bool) (ds : List Char) (hds : ∀ d ∈ ds, p d = true) :
    readDW p ds = (ds, none, []) := by
  induction ds with
  | nil => rfl
  | cons d ds ih =>
    have hd : p d = true := hds d (by simp)
    have hrec := ih (fun x hx => hds x (by simp [hx]))
    simp [readDW, hd, hrec]

lemma dropWhile_stops (p : Char → Bool) (ws : List Char) (d : Char) (t : List Char)
    (hws : ∀ x ∈ ws, p x = true) (hd : p d = false) :
    List.dropWhile p (ws ++ d :: t) = d :: t := by
  induction ws with
  | nil => simp [List.dropWhile, hd]
  | cons w ws ih =>
    have hw : p w = true := hws w (by simp)
    have hrec := ih (fun x hx => hws x (by simp [hx]))
    simp [List.dropWhile, hw, hrec]

/-! Decline lemmas: each scanner restores the cursor when it returns
false (with the sole exception of `scan_prep`, see the claims below). -/

lemma scanTable_decline (cls : String) (tbl : List String) (s : Cursor)
    (h : ∀ w ∈ tbl, (fgets w.length s).1 ≠ w.data) :
    scanTable cls tbl s = (false, [], s) := by
  induction tbl with
  | nil => rfl
  | cons w rest ih =>
    have hw := h w (by simp)
    have hrec := ih (fun x hx => h x (by simp [hx]))
    simp [scanTable, hw]
    rw [ungets_append, fgets_append]
    exact hrec

lemma scanTable_decline_head (cls : String) (tbl : List String) (c : Char) (s : Cursor)
    (h : ∀ w ∈ tbl, w.data ≠ [] ∧ w.data.head? ≠ some c) :
    scanTable cls tbl (c :: s) = (false, [], c :: s) := by
  apply scanTable_decline
  intro w hw
  obtain ⟨hne, hh⟩ := h w hw
  intro heq
  apply hh
  obtain ⟨h0, tl, hwd⟩ : ∃ h0 tl, w.data = h0 :: tl := by
    cases hwd : w.data with
    | nil => exact absurd hwd hne
    | cons h0 tl => exact ⟨h0, tl, rfl⟩
  have hlen : w.length = tl.length + 1 := by
    show w.data.length = tl.length + 1
    rw [hwd]
    rfl
  rw [← heq, hlen, fgets_cons_head]

lemma scan_sc_decline (c : Char) (s : Cursor) (h : c ≠ '/') :
    scan_sc (c :: s) = some (false, [], c :: s) := by
  have hb := fgets_cons_head 1 c s
  have happ := fgets_append 2 (c :: s)
  rcases hfg : fgets 2 (c :: s) with ⟨buf, s1⟩
  rw [hfg] at hb happ
  have hne : buf ≠ "//".data := by
    intro he
    rw [he] at hb
    simp at hb
    exact h hb.symm
  simp [scan_sc, hfg, hne, ungets_append, happ]

lemma scan_mc_decline (c : Char) (s : Cursor) (h : c ≠ '/') :
    scan_mc (c :: s) = some (false, [], c :: s) := by
  have hb := fgets_cons_head 1 c s
  have happ := fgets_append 2 (c :: s)
  rcases hfg : fgets 2 (c :: s) with ⟨buf, s1⟩
  rw [hfg] at hb happ
  have hne : buf ≠ "/*".data := by
    intro he
    rw [he] at hb
    simp at hb
    exact h hb.symm
  simp [scan_mc, hfg, hne, ungets_append, happ]

lemma scan_prep_decline (c : Char) (s : Cursor) (h : c ≠ '#') :
    scan_prep (c :: s) = some (false, [], c :: s) := by
  simp [scan_prep, fgetc, ungetc, h]

lemma scan_spec_decline (c : Char) (s : Cursor) (h1 : c ≠ '{') (h2 : c ≠ '}')
    (h3 : c ≠ '(') (h4 : c ≠ ')') (h5 : c ≠ ';') :
    scan_spec (c :: s) = some (false, [], c :: s) := by
  simp [scan_spec, fgetc, ungetc, h1, h2, h3, h4, h5]

lemma scan_char_decline (c : Char) (s : Cursor) (h : c ≠ '\'') :
    scan_char (c :: s) = some (false, [], c :: s) := by
  simp [scan_char, fgetc, ungetc, h]

lemma scan_str_decline (c : Char) (s : Cursor) (h : c ≠ '"') :
    scan_str (c :: s) = some (false, [], c :: s) := by
  simp [scan_str, fgetc, ungetc, h]

lemma scan_iden_decline (c : Char) (s : Cursor)
    (h1 : is_alphabet c = false) (h2 : is_underscore c = false) :
    scan_iden (c :: s) = some (false, [], c :: s) := by
  simp [scan_iden, fgetc, ungetc, h1, h2]

lemma scan_inte_decline (c : Char) (s : Cursor) (h : is_digit c = false) :
    scan_inte (c :: s) = some (false, [], c :: s) := by
  simp [scan_inte, fgetc, ungetc, h]

lemma scan_flot_decline (c : Char) (s : Cursor) (h1 : c ≠ '+') (h2 : c ≠ '-')
    (h3 : is_digit c = false) (h4 : c ≠ '.') :
    scan_flot (c :: s) = some (false, [], c :: s) := by
  simp [scan_flot, fgetc, ungetc, testO, h1, h2, h3, h4, ungetsO_append]

lemma scan_rewd_decline_head (c : Char) (s : Cursor)
    (h : ∀ w ∈ rewds, w.data ≠ [] ∧ w.data.head? ≠ some c) :
    scan_rewd (c :: s) = some (false, [], c :: s) := by
  unfold scan_rewd
  rw [scanTable_decline_head _ _ _ _ h]

lemma scan_oper_decline_head (c : Char) (s : Cursor)
    (h : ∀ w ∈ opers, w.data ≠ [] ∧ w.data.head? ≠ some c) :
    scan_oper (c :: s) = some (false, [], c :: s) := by
  unfold scan_oper
  rw [scanTable_decline_head _ _ _ _ h]

/-- No scanner accepts an `'@'`-headed stream: `get_next_token` consumes
nothing and prints nothing. -/
lemma get_next_token_at (s : Cursor) : get_next_token ('@' :: s) = some ([], '@' :: s) := by
  have h1 := scan_sc_decline '@' s (by decide)
  have h2 := scan_mc_decline '@' s (by decide)
  have h3 := scan_prep_decline '@' s (by decide)
  have h4 := scan_spec_decline '@' s (by decide) (by decide) (by decide) (by decide) (by decide)
  have h5 := scan_rewd_decline_head '@' s (by decide)
  have h6 := scan_char_decline '@' s (by decide)
  have h7 := scan_str_decline '@' s (by decide)
  have h8 := scan_flot_decline '@' s (by decide) (by decide) (by decide) (by decide)
  have h9 := scan_oper_decline_head '@' s (by decide)
  have h10 := scan_iden_decline '@' s (by decide) (by decide)
  have h11 := scan_inte_decline '@' s (by decide)
  simp [get_next_token, lexFns, tryLex, h1, h2, h3, h4, h5, h6, h7, h8, h9, h10, h11]

/-- The main loop never terminates when the next character is `'@'`,
whatever fuel it is given. -/
lemma driver_at_none (fuel : Nat) (s : Cursor) : driver fuel ('@' :: s) = none := by
  induction fuel with
  | zero => rfl
  | succ fuel ih =>
    simp [driver, get_next_token_at, ih]
    intro hws
    exact absurd hws (by decide)

/-! The claims. -/

/-- C1: the claim states that every recognizer restores the cursor
exactly when it declines, in particular the preprocessor recognizer when
the characters after `#` do not match `include`.  The code violates this:
on input `#foo` the recognizer `scan_prep` declines (returns false) but
leaves the cursor at the literal word `include` — it pushed back
`ungets("include")` instead of the consumed characters and never
restored the `#` — so the position after the attempt differs from the
position before it. -/
theorem C1_prep_decline_corrupts_cursor :
    scan_prep "#foo".data =
      some (false, ["PREP: #foo ERROR: expected \"include\"\n"], "include".data) ∧
    "include".data ≠ "#foo".data := by
  constructor
  · decide
  · decide

set_option maxRecDepth 4000 in
/-- C2: the claim states every emitted record is
`<line-or-range> TAB <CLASS> TAB <lexeme>`.  The code emits
`CLASS: lexeme` instead: on input `abc` the full run writes the single
record `IDEN: abc` — no line number is stamped (the `line_number`
counter is never read by any emitter) and the record contains no tab at
all. -/
theorem C2_emitted_record_has_no_line_number_or_tab :
    driver 5 "abc".data = some ["IDEN: abc\n"] ∧
    "IDEN: abc\n".data.contains '\u0009' = false ∧
    "IDEN: abc\n".data.head? = some 'I' := by
  refine ⟨by decide, by decide, by decide⟩

/-- C3 (counterexample): the claim states that at a position where no
recognizer accepts, a lexical error is emitted and the cursor advances
by one so the driver terminates.  On input `@` the dispatcher emits
nothing and consumes nothing, and the driver exhausts any fuel — here
1000 steps — without terminating. -/
theorem C3_counterexample_unscannable_loops :
    get_next_token ['@'] = some ([], ['@']) ∧ driver 1000 ['@'] = none :=
  ⟨get_next_token_at [], driver_at_none 1000 []⟩

/-- C3 (amended): if no recognizer accepts (for example at an `'@'`),
`get_next_token` emits no error and consumes nothing, and the driver
main loop makes no forward progress: it fails to terminate on any input
whose next character is `'@'`, for every iteration bound. -/
theorem C3_unscannable_no_progress (fuel : Nat) (s : Cursor) :
    get_next_token ('@' :: s) = some ([], '@' :: s) ∧ driver fuel ('@' :: s) = none :=
  ⟨get_next_token_at s, driver_at_none fuel s⟩

set_option maxRecDepth 8000 in
/-- C4: the claim states the keyword recognizer requires a word
boundary, so `intx` is emitted as one identifier.  The code has no such
check: `scan_rewd` matches the first table entry that literally equals
the next characters, so the run on `intx` emits keyword `int` followed
by identifier `x`. -/
theorem C4_keyword_without_word_boundary :
    driver 10 "intx".data = some ["REWD: int\n", "IDEN: x\n"] := by
  decide

/-- C7 (counterexample): the claim states `scan_mc` consumes up to and
including the first `*/` and commits without error, in particular for a
body ending in `**/`.  On input `/***/` the closer is missed (its `*`
was consumed as the look-ahead of the previous `*`), the whole input is
consumed, and the token carries the unterminated-comment error. -/
theorem C7_counterexample_star_star_close :
    scan_mc "/***/".data = some (true, ["MC: ERROR: missing */\n"], []) ∧
    scan_mc "/***/".data ≠ some (true, ["MC: \n"], []) := by
  constructor
  · decide
  · decide

/-- C8: the claim states a char literal whose quote is never closed
before a line terminator or end of input terminates with the partial
content and a missing-quote error.  At a hard end of file the code does
not terminate — the content loop of `scan_char` never tests for `EOF`,
so on input `'o` with no trailing newline it reads `EOF` forever
(modelled by `none`), while with a line terminator present it does
commit `CHAR: o` with the missing-quote error. -/
theorem C8_char_literal_eof_divergence :
    scan_char "'o".data = none ∧
    scan_char "'o\n".data = some (true, ["CHAR: o ERROR: missing '\n"], []) := by
  constructor
  · decide
  · decide

/-- C9 (counterexample): the claim states a backslash immediately before
a line terminator is a line continuation.  CR (0x0D) is a line
terminator for this scanner (`is_newline`), yet backslash-CR inside a
string is not a continuation: the CR is kept in the lexeme (escape
translation maps it to itself), as the run on `"a\<CR>b"` shows. -/
theorem C9_counterexample_backslash_cr :
    is_newline '\u000D' = true ∧
    scan_str ('"' :: 'a' :: '\\' :: '\u000D' :: 'b' :: '"' :: []) =
      some (true, ["STR: a\u000Db\n"], []) ∧
    scan_str ('"' :: 'a' :: '\\' :: '\u000D' :: 'b' :: '"' :: []) ≠
      some (true, ["STR: ab\n"], []) := by
  refine ⟨by decide, ?_, ?_⟩
  · simp [scan_str, strLoop, fgetc, is_newline, get_escaped_char]
  · simp [scan_str, strLoop, fgetc, is_newline, get_escaped_char]

/-! Lemmas for the multi-line-comment closer loop. -/

lemma mcLoop_skip (body : List Char) (t : Cursor) (h : ∀ b ∈ body, b ≠ '*') :
    mcLoop (body ++ t) = mcLoop t := by
  induction body with
  | nil => rfl
  | cons b body ih =>
    have hb : b ≠ '*' := h b (by simp)
    rw [mcLoop.eq_def]
    simp [hb]
    exact ih (fun x hx => h x (by simp [hx]))

lemma scan_mc_open_close (t : Cursor) (s2 : Cursor) (h : mcLoop t = (true, s2)) :
    scan_mc ('/' :: '*' :: t) = some (true, ["MC: \n"], s2) := by
  simp [scan_mc, fgets, h]

lemma scan_mc_open_err (t : Cursor) (s2 : Cursor) (h : mcLoop t = (false, s2)) :
    scan_mc ('/' :: '*' :: t) = some (true, ["MC: ERROR: missing */\n"], s2) := by
  simp [scan_mc, fgets, h]

/-- C7 (amended): after `/*`, the comment scanner reads characters in
steps — on a `'*'` it fetches one look-ahead and compares it with `'/'`
only — so it closes at a `*/` whose star is read at the start of a step,
and commits a MultiLineComment with an empty lexeme there.  A `*/` whose
star was already consumed as the look-ahead of a preceding `'*'` is
missed: a body ending in `**/` is not closed at that `*/`, scanning runs
to end of input and the token is committed with the
unterminated-comment error, exactly as when no closer exists at all. -/
theorem C7_mc_closer_semantics (body : List Char) (rest : Cursor) (h : ∀ b ∈ body, b ≠ '*') :
    scan_mc ('/' :: '*' :: (body ++ '*' :: '/' :: rest)) = some (true, ["MC: \n"], rest) ∧
    scan_mc ('/' :: '*' :: (body ++ ['*', '*', '/'])) =
      some (true, ["MC: ERROR: missing */\n"], []) ∧
    scan_mc ('/' :: '*' :: body) = some (true, ["MC: ERROR: missing */\n"], []) := by
  refine ⟨?_, ?_, ?_⟩
  · apply scan_mc_open_close
    rw [mcLoop_skip body _ h]
    rfl
  · apply scan_mc_open_err
    rw [mcLoop_skip body _ h]
    rfl
  · apply scan_mc_open_err
    rw [← List.append_nil body, mcLoop_skip body _ h]
    rfl

/-- C7 (witness): the amended closer semantics at the concrete body
`ab`: `/*ab*/xy` closes leaving `xy`, while `/*ab**/` and a runaway
`/*ab` commit with the unterminated-comment error. -/
theorem C7_mc_closer_semantics_witness :
    scan_mc ('/' :: '*' :: ("ab".data ++ '*' :: '/' :: "xy".data)) =
      some (true, ["MC: \n"], "xy".data) ∧
    scan_mc ('/' :: '*' :: ("ab".data ++ ['*', '*', '/'])) =
      some (true, ["MC: ERROR: missing */\n"], []) ∧
    scan_mc ('/' :: '*' :: "ab".data) = some (true, ["MC: ERROR: missing */\n"], []) :=
  C7_mc_closer_semantics "ab".data "xy".data (by decide)

/-! Lemmas for the string-literal content loop. -/

lemma strLoop_quote (rest : Cursor) : strLoop ('"' :: rest) = some ([], '"', rest) := by
  rw [strLoop.eq_def]
  simp

lemma strLoop_plain (a : List Char) (t : Cursor)
    (h : ∀ x ∈ a, x ≠ '"' ∧ x ≠ '\\' ∧ is_newline x = false) :
    strLoop (a ++ t) = (strLoop t).map (fun r => (a ++ r.1, r.2)) := by
  induction a with
  | nil =>
    cases hs : strLoop t <;> simp [hs]
  | cons x a ih =>
    obtain ⟨h1, h2, h3⟩ := h x (by simp)
    have hrec := ih (fun y hy => h y (by simp [hy]))
    rw [strLoop.eq_def]
    cases hs : strLoop t <;> simp [h1, h2, h3, hrec, hs]

lemma strLoop_escape (e : Char) (t : Cursor) (he : e ≠ '\u000A') :
    strLoop ('\\' :: e :: t) = (strLoop t).map (fun r => (get_escaped_char e :: r.1, r.2)) := by
  have hnl : is_newline '\\' = false := by decide
  rw [strLoop.eq_def]
  cases hs : strLoop t <;> simp [hnl, he, hs]

lemma strLoop_continuation (ws : List Char) (d : Char) (t : Cursor)
    (hws : ∀ x ∈ ws, is_whitespace x = true) (hd : is_whitespace d = false) :
    strLoop ('\\' :: '\u000A' :: (ws ++ d :: t)) =
      (strLoop t).map (fun r => (d :: r.1, r.2)) := by
  have hnl : is_newline '\\' = false := by decide
  have hdw := dropWhile_stops is_whitespace ws d t hws hd
  rw [strLoop.eq_def]
  simp only [hnl]
  rw [hdw, strCont.eq_def]
  cases hs : strLoop t <;> simp [hs]

/-- C9 (amended): inside a string literal a backslash immediately before
LF (`0x0A`) is a line continuation — backslash and LF are dropped, the
whitespace run that follows is skipped, and the first non-whitespace
character is stored before scanning resumes; a backslash before any
other character (CR included) stores the C-style escape translation
`get_escaped_char` of that character instead. -/
theorem C9_string_escape_and_continuation (a b ws : List Char) (e d : Char) (rest : Cursor)
    (ha : ∀ x ∈ a, x ≠ '"' ∧ x ≠ '\\' ∧ is_newline x = false)
    (hb : ∀ x ∈ b, x ≠ '"' ∧ x ≠ '\\' ∧ is_newline x = false)
    (he : e ≠ '\u000A')
    (hws : ∀ x ∈ ws, is_whitespace x = true)
    (hd : is_whitespace d = false) :
    scan_str ('"' :: (a ++ '\\' :: e :: (b ++ '"' :: rest))) =
      some (true, ["STR: " ++ String.mk (a ++ get_escaped_char e :: b) ++ "\n"], rest) ∧
    scan_str ('"' :: (a ++ '\\' :: '\u000A' :: (ws ++ d :: (b ++ '"' :: rest)))) =
      some (true, ["STR: " ++ String.mk (a ++ d :: b) ++ "\n"], rest) := by
  have hbq : strLoop (b ++ '"' :: rest) = some (b, '"', rest) := by
    rw [strLoop_plain b _ hb, strLoop_quote]
    simp
  constructor
  · have h1 : strLoop ('\\' :: e :: (b ++ '"' :: rest)) =
        some (get_escaped_char e :: b, '"', rest) := by
      rw [strLoop_escape e _ he, hbq]
      rfl
    have h2 : strLoop (a ++ '\\' :: e :: (b ++ '"' :: rest)) =
        some (a ++ get_escaped_char e :: b, '"', rest) := by
      rw [strLoop_plain a _ ha, h1]
      rfl
    simp [scan_str, fgetc, h2]
  · have h1 : strLoop ('\\' :: '\u000A' :: (ws ++ d :: (b ++ '"' :: rest))) =
        some (d :: b, '"', rest) := by
      rw [strLoop_continuation ws d _ hws hd, hbq]
      rfl
    have h2 : strLoop (a ++ '\\' :: '\u000A' :: (ws ++ d :: (b ++ '"' :: rest))) =
        some (a ++ d :: b, '"', rest) := by
      rw [strLoop_plain a _ ha, h1]
      rfl
    simp [scan_str, fgetc, h2]

/-- C9 (witness): the amended escape/continuation behaviour at concrete
inputs: `"x\ny"` stores the newline escape, and a backslash-LF followed
by two spaces resumes at `z`. -/
theorem C9_string_escape_and_continuation_witness :
    scan_str ('"' :: ("x".data ++ '\\' :: 'n' :: ("y".data ++ '"' :: "tail".data))) =
      some (true, ["STR: " ++ String.mk ("x".data ++ get_escaped_char 'n' :: "y".data) ++ "\n"],
        "tail".data) ∧
    scan_str ('"' :: ("x".data ++ '\\' :: '\u000A' :: ("  ".data ++ 'z' :: ("y".data ++ '"' :: "tail".data)))) =
      some (true, ["STR: " ++ String.mk ("x".data ++ 'z' :: "y".data) ++ "\n"], "tail".data) :=
  C9_string_escape_and_continuation "x".data "y".data "  ".data 'n' 'z' "tail".data
    (by decide) (by decide) (by decide) (by decide) (by decide)

/-! Lemmas for the integer recognizer. -/

lemma octal_cond_true {c : Char} (h : '0' ≤ c ∧ c ≤ '7') :
    (decide ('0' ≤ c) && decide (c ≤ '7')) = true := by
  simp [h.1, h.2]

lemma octal_cond_false {c : Char} (h : ¬('0' ≤ c ∧ c ≤ '7')) :
    (decide ('0' ≤ c) && decide (c ≤ '7')) = false := by
  by_contra hb
  simp at hb
  exact h hb

lemma scan_inte_hex (x d0 : Char) (ds : List Char) (c : Char) (rest : Cursor)
    (hx : x = 'x' ∨ x = 'X') (hd0 : is_hex_digit d0 = true)
    (hds : ∀ d ∈ ds, is_hex_digit d = true) (hc : is_hex_digit c = false) :
    scan_inte ('0' :: x :: d0 :: (ds ++ c :: rest)) =
      some (true, ["INTE: " ++ String.mk ('0' :: x :: d0 :: ds) ++ "\n"], c :: rest) := by
  have hrw := readWhile_stops is_hex_digit d0 ds c rest hd0 hds hc
  have h0d : is_digit '0' = true := by decide
  rcases hx with rfl | rfl <;>
    simp [scan_inte, fgetc, testO, h0d, hd0, hrw, ungetc]

lemma scan_inte_nohex (x c : Char) (rest : Cursor)
    (hx : x = 'x' ∨ x = 'X') (hc : is_hex_digit c = false) :
    scan_inte ('0' :: x :: c :: rest) = some (true, ["INTE: 0\n"], x :: c :: rest) := by
  have h0d : is_digit '0' = true := by decide
  rcases hx with rfl | rfl <;>
    simp [scan_inte, fgetc, testO, h0d, hc, ungetsO_append]

lemma scan_inte_octal (d0 : Char) (ds : List Char) (c : Char) (rest : Cursor)
    (hd0 : '0' ≤ d0 ∧ d0 ≤ '7') (hds : ∀ e ∈ ds, '0' ≤ e ∧ e ≤ '7')
    (hc : ¬('0' ≤ c ∧ c ≤ '7')) :
    scan_inte ('0' :: d0 :: (ds ++ c :: rest)) =
      some (true, ["INTE: " ++ String.mk ('0' :: d0 :: ds) ++ "\n"], c :: rest) := by
  have hdig : is_digit d0 = true := by
    simp [is_digit]
    exact ⟨hd0.1, le_trans hd0.2 (by decide)⟩
  have hx1 : d0 ≠ 'x' := by rintro rfl; exact absurd hd0.2 (by decide)
  have hx2 : d0 ≠ 'X' := by rintro rfl; exact absurd hd0.2 (by decide)
  have hrw := readWhile_stops (fun d => decide ('0' ≤ d) && decide (d ≤ '7')) d0 ds c rest
    (octal_cond_true hd0) (fun e he => octal_cond_true (hds e he)) (octal_cond_false hc)
  have h0d : is_digit '0' = true := by decide
  simp [scan_inte, fgetc, h0d, hdig, hx1, hx2, octal_cond_true hd0, hrw, ungetc]

lemma scan_inte_zero89 (d : Char) (rest : Cursor) (hd : d = '8' ∨ d = '9') :
    scan_inte ('0' :: d :: rest) = some (true, ["INTE: 0\n"], d :: rest) := by
  have h0d : is_digit '0' = true := by decide
  rcases hd with rfl | rfl <;> simp [scan_inte, fgetc, h0d, ungetc]

lemma scan_inte_dec (d0 : Char) (ds : List Char) (c : Char) (rest : Cursor)
    (hd0 : is_digit d0 = true) (h0 : d0 ≠ '0') (hds : ∀ e ∈ ds, is_digit e = true)
    (hc : is_digit c = false) :
    scan_inte (d0 :: (ds ++ c :: rest)) =
      some (true, ["INTE: " ++ String.mk (d0 :: ds) ++ "\n"], c :: rest) := by
  have hrw := readWhile_stops is_digit d0 ds c rest hd0 hds hc
  simp [scan_inte, fgetc, hd0, h0, hrw, ungetc]

set_option maxRecDepth 8000 in
/-- C5: the integer sub-grammar of `scan_inte`.  `0x`/`0X` followed by at
least one hex digit commits a maximal hexadecimal literal; if no hex
digit follows, the committed token is just `0` and the `x` and its
follower are pushed back (so `0x` at a line end yields Integer `0` and
the `x` is consumed by a later identifier attempt); `0` followed by an
octal digit commits a maximal octal literal; `0` followed by `8` or `9`
commits `0` and leaves the digit to start a fresh integer (`08` lexes as
Integer `0`, Integer `8`); a nonzero leading digit commits a maximal
decimal literal. -/
theorem C5_integer_subgrammar :
    (∀ x d0 ds c rest, (x = 'x' ∨ x = 'X') → is_hex_digit d0 = true →
      (∀ d ∈ ds, is_hex_digit d = true) → is_hex_digit c = false →
      scan_inte ('0' :: x :: d0 :: (ds ++ c :: rest)) =
        some (true, ["INTE: " ++ String.mk ('0' :: x :: d0 :: ds) ++ "\n"], c :: rest)) ∧
    (∀ x c rest, (x = 'x' ∨ x = 'X') → is_hex_digit c = false →
      scan_inte ('0' :: x :: c :: rest) = some (true, ["INTE: 0\n"], x :: c :: rest)) ∧
    (∀ d0 ds c rest, ('0' ≤ d0 ∧ d0 ≤ '7') → (∀ e ∈ ds, '0' ≤ e ∧ e ≤ '7') →
      ¬('0' ≤ c ∧ c ≤ '7') →
      scan_inte ('0' :: d0 :: (ds ++ c :: rest)) =
        some (true, ["INTE: " ++ String.mk ('0' :: d0 :: ds) ++ "\n"], c :: rest)) ∧
    (∀ d rest, (d = '8' ∨ d = '9') →
      scan_inte ('0' :: d :: rest) = some (true, ["INTE: 0\n"], d :: rest)) ∧
    (∀ d0 ds c rest, is_digit d0 = true → d0 ≠ '0' → (∀ e ∈ ds, is_digit e = true) →
      is_digit c = false →
      scan_inte (d0 :: (ds ++ c :: rest)) =
        some (true, ["INTE: " ++ String.mk (d0 :: ds) ++ "\n"], c :: rest)) ∧
    driver 10 "0x".data = some ["INTE: 0\n", "IDEN: x\n"] ∧
    driver 10 "08".data = some ["INTE: 0\n", "INTE: 8\n"] := by
  refine ⟨?_, ?_, ?_, ?_, ?_, ?_, ?_⟩
  · exact fun x d0 ds c rest hx hd0 hds hc => scan_inte_hex x d0 ds c rest hx hd0 hds hc
  · exact fun x c rest hx hc => scan_inte_nohex x c rest hx hc
  · exact fun d0 ds c rest hd0 hds hc => scan_inte_octal d0 ds c rest hd0 hds hc
  · exact fun d rest hd => scan_inte_zero89 d rest hd
  · exact fun d0 ds c rest hd0 h0 hds hc => scan_inte_dec d0 ds c rest hd0 h0 hds hc
  · decide
  · decide

set_option maxRecDepth 8000 in
/-- C5 (witness): the sub-grammar at concrete inputs — `0xff,z` commits
`0xff`; `0xpq` commits `0` pushing `x` and `p` back; `0778z` commits the
octal `077` leaving `8z`; `08z` commits `0` leaving `8z`; `25az` commits
`25` leaving `az`. -/
theorem C5_integer_subgrammar_witness :
    scan_inte ('0' :: 'x' :: 'f' :: ("f".data ++ ',' :: "z".data)) =
      some (true, ["INTE: " ++ String.mk ('0' :: 'x' :: 'f' :: "f".data) ++ "\n"],
        ',' :: "z".data) ∧
    scan_inte ('0' :: 'x' :: 'p' :: "q".data) = some (true, ["INTE: 0\n"], 'x' :: 'p' :: "q".data) ∧
    scan_inte ('0' :: '7' :: ("7".data ++ '8' :: "z".data)) =
      some (true, ["INTE: " ++ String.mk ('0' :: '7' :: "7".data) ++ "\n"], '8' :: "z".data) ∧
    scan_inte ('0' :: '8' :: "z".data) = some (true, ["INTE: 0\n"], '8' :: "z".data) ∧
    scan_inte ('2' :: ("5".data ++ 'a' :: "z".data)) =
      some (true, ["INTE: " ++ String.mk ('2' :: "5".data) ++ "\n"], 'a' :: "z".data) :=
  ⟨C5_integer_subgrammar.1 'x' 'f' "f".data ',' "z".data (Or.inl rfl) (by decide)
      (by decide) (by decide),
   C5_integer_subgrammar.2.1 'x' 'p' "q".data (Or.inl rfl) (by decide),
   C5_integer_subgrammar.2.2.1 '7' "7".data '8' "z".data (by decide) (by decide) (by decide),
   C5_integer_subgrammar.2.2.2.1 '8' "z".data (Or.inl rfl),
   C5_integer_subgrammar.2.2.2.2.1 '2' "5".data 'a' "z".data (by decide) (by decide)
      (by decide) (by decide)⟩

/-! Lemmas for the float recognizer. -/

lemma digit_ne_sign {c : Char} (h : is_digit c = true) : c ≠ '+' ∧ c ≠ '-' := by
  constructor <;> rintro rfl <;> exact absurd h (by decide)

lemma scan_flot_rollback_int (i0 : Char) (ints fracs : List Char) (e : Char) (sg : List Char)
    (c : Char) (rest : Cursor)
    (hi0 : is_digit i0 = true) (hints : ∀ d ∈ ints, is_digit d = true)
    (hfracs : ∀ d ∈ fracs, is_digit d = true) (he : e = 'E' ∨ e = 'e')
    (hsg : sg = [] ∨ sg = ['+'] ∨ sg = ['-'])
    (hc : is_digit c = false) (hcs : sg = [] → c ≠ '+' ∧ c ≠ '-') :
    scan_flot (i0 :: (ints ++ '.' :: (fracs ++ e :: (sg ++ c :: rest)))) =
      some (true, ["FLOT: " ++ String.mk (i0 :: ints ++ '.' :: fracs) ++ "\n"],
        e :: (sg ++ c :: rest)) := by
  obtain ⟨h1, h2⟩ := digit_ne_sign hi0
  have hend : is_digit e = false := by rcases he with rfl | rfl <;> decide
  rcases hsg with rfl | rfl | rfl
  · obtain ⟨hc1, hc2⟩ := hcs rfl
    have hrw1 := readDW_stops is_digit ints '.' (fracs ++ e :: c :: rest) hints (by decide)
    have hrw2 := readDW_stops is_digit fracs e (c :: rest) hfracs hend
    rcases he with rfl | rfl <;>
      simp [scan_flot, fgetc, testO, h1, h2, hi0, hrw1, hrw2, flotExponent, hc, hc1, hc2,
        ungetc, ungetsO_append]
  · have hrw1 := readDW_stops is_digit ints '.' (fracs ++ e :: '+' :: c :: rest) hints (by decide)
    have hrw2 := readDW_stops is_digit fracs e ('+' :: c :: rest) hfracs hend
    rcases he with rfl | rfl <;>
      simp [scan_flot, fgetc, testO, h1, h2, hi0, hrw1, hrw2, flotExponent, hc,
        ungetc, ungetsO_append]
  · have hrw1 := readDW_stops is_digit ints '.' (fracs ++ e :: '-' :: c :: rest) hints (by decide)
    have hrw2 := readDW_stops is_digit fracs e ('-' :: c :: rest) hfracs hend
    rcases he with rfl | rfl <;>
      simp [scan_flot, fgetc, testO, h1, h2, hi0, hrw1, hrw2, flotExponent, hc,
        ungetc, ungetsO_append]

lemma scan_flot_rollback_dot (f0 : Char) (fracs : List Char) (e : Char) (sg : List Char)
    (c : Char) (rest : Cursor)
    (hf0 : is_digit f0 = true) (hfracs : ∀ d ∈ fracs, is_digit d = true)
    (he : e = 'E' ∨ e = 'e') (hsg : sg = [] ∨ sg = ['+'] ∨ sg = ['-'])
    (hc : is_digit c = false) (hcs : sg = [] → c ≠ '+' ∧ c ≠ '-') :
    scan_flot ('.' :: f0 :: (fracs ++ e :: (sg ++ c :: rest))) =
      some (true, ["FLOT: " ++ String.mk ('.' :: f0 :: fracs) ++ "\n"],
        e :: (sg ++ c :: rest)) := by
  have hend : is_digit e = false := by rcases he with rfl | rfl <;> decide
  have hdot : is_digit '.' = false := by decide
  rcases hsg with rfl | rfl | rfl
  · obtain ⟨hc1, hc2⟩ := hcs rfl
    have hrw2 := readDW_stops is_digit fracs e (c :: rest) hfracs hend
    rcases he with rfl | rfl <;>
      simp [scan_flot, fgetc, testO, hdot, hf0, hrw2, flotExponent, hc, hc1, hc2,
        ungetc, ungetsO_append]
  · have hrw2 := readDW_stops is_digit fracs e ('+' :: c :: rest) hfracs hend
    rcases he with rfl | rfl <;>
      simp [scan_flot, fgetc, testO, hdot, hf0, hrw2, flotExponent, hc, ungetc, ungetsO_append]
  · have hrw2 := readDW_stops is_digit fracs e ('-' :: c :: rest) hfracs hend
    rcases he with rfl | rfl <;>
      simp [scan_flot, fgetc, testO, hdot, hf0, hrw2, flotExponent, hc, ungetc, ungetsO_append]

lemma scan_flot_signed_commit (sg i0 : Char) (ints fracs : List Char) (c : Char) (rest : Cursor)
    (hsg : sg = '+' ∨ sg = '-') (hi0 : is_digit i0 = true)
    (hints : ∀ d ∈ ints, is_digit d = true) (hfracs : ∀ d ∈ fracs, is_digit d = true)
    (hc : is_digit c = false) (hcE : c ≠ 'E') (hce : c ≠ 'e') :
    scan_flot (sg :: i0 :: (ints ++ '.' :: (fracs ++ c :: rest))) =
      some (true, ["FLOT: " ++ String.mk (sg :: i0 :: ints ++ '.' :: fracs) ++ "\n"],
        c :: rest) := by
  have hrw1 := readDW_stops is_digit ints '.' (fracs ++ c :: rest) hints (by decide)
  have hrw2 := readDW_stops is_digit fracs c rest hfracs hc
  rcases hsg with rfl | rfl <;>
    simp [scan_flot, fgetc, testO, hi0, hrw1, hrw2, flotExponent, hcE, hce, ungetc]

set_option maxRecDepth 8000 in
/-- C6: when the mantissa (a decimal point with a digit adjacent on at
least one side) is followed by `E`/`e` that is not followed by at least
one digit (after an optional sign), `scan_flot` rolls the exponent
suffix back character by character — the stream afterwards starts with
the `E`/`e`, the optional sign and the rejected character, in original
order — and commits the Float token at the last valid mantissa state;
in particular `1.0e-n` yields exactly the four tokens Float `1.0`,
Identifier `e`, Operator `-`, Identifier `n`. -/
theorem C6_float_exponent_rollback :
    (∀ i0 ints fracs e sg c rest, is_digit i0 = true → (∀ d ∈ ints, is_digit d = true) →
      (∀ d ∈ fracs, is_digit d = true) → (e = 'E' ∨ e = 'e') →
      (sg = [] ∨ sg = ['+'] ∨ sg = ['-']) → is_digit c = false →
      (sg = [] → c ≠ '+' ∧ c ≠ '-') →
      scan_flot (i0 :: (ints ++ '.' :: (fracs ++ e :: (sg ++ c :: rest)))) =
        some (true, ["FLOT: " ++ String.mk (i0 :: ints ++ '.' :: fracs) ++ "\n"],
          e :: (sg ++ c :: rest))) ∧
    (∀ f0 fracs e sg c rest, is_digit f0 = true → (∀ d ∈ fracs, is_digit d = true) →
      (e = 'E' ∨ e = 'e') → (sg = [] ∨ sg = ['+'] ∨ sg = ['-']) → is_digit c = false →
      (sg = [] → c ≠ '+' ∧ c ≠ '-') →
      scan_flot ('.' :: f0 :: (fracs ++ e :: (sg ++ c :: rest))) =
        some (true, ["FLOT: " ++ String.mk ('.' :: f0 :: fracs) ++ "\n"],
          e :: (sg ++ c :: rest))) ∧
    driver 30 "1.0e-n".data = some ["FLOT: 1.0\n", "IDEN: e\n", "OPER: -\n", "IDEN: n\n"] := by
  refine ⟨?_, ?_, ?_⟩
  · exact fun i0 ints fracs e sg c rest h1 h2 h3 h4 h5 h6 h7 =>
      scan_flot_rollback_int i0 ints fracs e sg c rest h1 h2 h3 h4 h5 h6 h7
  · exact fun f0 fracs e sg c rest h1 h2 h3 h4 h5 h6 =>
      scan_flot_rollback_dot f0 fracs e sg c rest h1 h2 h3 h4 h5 h6
  · decide

/-- C6 (witness): the rollback at the concrete inputs `1.0e-n` (integer
leading mantissa, exponent sign, rejected `n`) and `.5E+x`. -/
theorem C6_float_exponent_rollback_witness :
    scan_flot ('1' :: ([] ++ '.' :: ("0".data ++ 'e' :: (['-'] ++ 'n' :: [])))) =
      some (true, ["FLOT: " ++ String.mk ('1' :: [] ++ '.' :: "0".data) ++ "\n"],
        'e' :: (['-'] ++ 'n' :: [])) ∧
    scan_flot ('.' :: '5' :: ([] ++ 'E' :: (['+'] ++ 'x' :: []))) =
      some (true, ["FLOT: " ++ String.mk ('.' :: '5' :: []) ++ "\n"],
        'E' :: (['+'] ++ 'x' :: [])) :=
  ⟨C6_float_exponent_rollback.1 '1' [] "0".data 'e' ['-'] 'n' [] (by decide) (by decide)
      (by decide) (Or.inr rfl) (Or.inr (Or.inr rfl)) (by decide) (by intro h; cases h),
   C6_float_exponent_rollback.2.1 '5' [] 'E' ['+'] 'x' [] (by decide) (by decide)
      (Or.inl rfl) (Or.inr (Or.inl rfl)) (by decide) (by intro h; cases h)⟩

/-- Dispatch consequence used by C10: at a position whose next
characters are a sign immediately followed by a float literal, every
recognizer before `scan_flot` in the `lex` order declines (restoring the
cursor) and `scan_flot` accepts, absorbing the sign. -/
lemma get_next_token_signed_float (sg i0 : Char) (ints fracs : List Char) (c : Char)
    (rest : Cursor) (hsg : sg = '+' ∨ sg = '-') (hi0 : is_digit i0 = true)
    (hints : ∀ d ∈ ints, is_digit d = true) (hfracs : ∀ d ∈ fracs, is_digit d = true)
    (hc : is_digit c = false) (hcE : c ≠ 'E') (hce : c ≠ 'e') :
    get_next_token (sg :: (i0 :: (ints ++ '.' :: (fracs ++ c :: rest)))) =
      some (["FLOT: " ++ String.mk (sg :: i0 :: ints ++ '.' :: fracs) ++ "\n"], c :: rest) := by
  rcases hsg with rfl | rfl
  · have hf := scan_flot_signed_commit '+' i0 ints fracs c rest (Or.inl rfl) hi0 hints hfracs hc hcE hce
    have h1 := scan_sc_decline '+' (i0 :: (ints ++ '.' :: (fracs ++ c :: rest))) (by decide)
    have h2 := scan_mc_decline '+' (i0 :: (ints ++ '.' :: (fracs ++ c :: rest))) (by decide)
    have h3 := scan_prep_decline '+' (i0 :: (ints ++ '.' :: (fracs ++ c :: rest))) (by decide)
    have h4 := scan_spec_decline '+' (i0 :: (ints ++ '.' :: (fracs ++ c :: rest)))
      (by decide) (by decide) (by decide) (by decide) (by decide)
    have h5 := scan_rewd_decline_head '+' (i0 :: (ints ++ '.' :: (fracs ++ c :: rest))) (by decide)
    have h6 := scan_char_decline '+' (i0 :: (ints ++ '.' :: (fracs ++ c :: rest))) (by decide)
    have h7 := scan_str_decline '+' (i0 :: (ints ++ '.' :: (fracs ++ c :: rest))) (by decide)
    simp [get_next_token, lexFns, tryLex, h1, h2, h3, h4, h5, h6, h7, hf]
  · have hf := scan_flot_signed_commit '-' i0 ints fracs c rest (Or.inr rfl) hi0 hints hfracs hc hcE hce
    have h1 := scan_sc_decline '-' (i0 :: (ints ++ '.' :: (fracs ++ c :: rest))) (by decide)
    have h2 := scan_mc_decline '-' (i0 :: (ints ++ '.' :: (fracs ++ c :: rest))) (by decide)
    have h3 := scan_prep_decline '-' (i0 :: (ints ++ '.' :: (fracs ++ c :: rest))) (by decide)
    have h4 := scan_spec_decline '-' (i0 :: (ints ++ '.' :: (fracs ++ c :: rest)))
      (by decide) (by decide) (by decide) (by decide) (by decide)
    have h5 := scan_rewd_decline_head '-' (i0 :: (ints ++ '.' :: (fracs ++ c :: rest))) (by decide)
    have h6 := scan_char_decline '-' (i0 :: (ints ++ '.' :: (fracs ++ c :: rest))) (by decide)
    have h7 := scan_str_decline '-' (i0 :: (ints ++ '.' :: (fracs ++ c :: rest))) (by decide)
    simp [get_next_token, lexFns, tryLex, h1, h2, h3, h4, h5, h6, h7, hf]

set_option maxRecDepth 8000 in
/-- C10: because `scan_flot` runs before `scan_oper` in the dispatch
order and accepts an optional leading sign, a sign character immediately
followed by a float literal is absorbed into a single signed Float token
even directly after another token: the dispatcher at such a position
emits one `FLOT` record including the sign, and the full run on `1-2.5`
emits Integer `1` then Float `-2.5` — not Integer, Operator, Float. -/
theorem C10_sign_absorbed_into_float :
    (∀ sg i0 ints fracs c rest, (sg = '+' ∨ sg = '-') → is_digit i0 = true →
      (∀ d ∈ ints, is_digit d = true) → (∀ d ∈ fracs, is_digit d = true) →
      is_digit c = false → c ≠ 'E' → c ≠ 'e' →
      get_next_token (sg :: (i0 :: (ints ++ '.' :: (fracs ++ c :: rest)))) =
        some (["FLOT: " ++ String.mk (sg :: i0 :: ints ++ '.' :: fracs) ++ "\n"], c :: rest)) ∧
    driver 20 "1-2.5".data = some ["INTE: 1\n", "FLOT: -2.5\n"] := by
  constructor
  · exact fun sg i0 ints fracs c rest h1 h2 h3 h4 h5 h6 h7 =>
      get_next_token_signed_float sg i0 ints fracs c rest h1 h2 h3 h4 h5 h6 h7
  · decide

/-- C10 (witness): the dispatcher at `-2.5;` absorbs the sign into one
Float record. -/
theorem C10_sign_absorbed_into_float_witness :
    get_next_token ('-' :: ('2' :: ([] ++ '.' :: ("5".data ++ ';' :: [])))) =
      some (["FLOT: " ++ String.mk ('-' :: '2' :: [] ++ '.' :: "5".data) ++ "\n"], ';' :: []) :=
  C10_sign_absorbed_into_float.1 '-' '2' [] "5".data ';' [] (Or.inr rfl) (by decide)
    (by decide) (by decide) (by decide) (by decide) (by decide)
